import Mathlib

/- Verification development for the PhotoShare sync client.
   The Python sources (client/auth.py, client/sync.py) are embedded shallowly:
   pure helpers become Lean functions, byte strings become lists of Nat
   (each entry a byte value), machine arithmetic is Nat with explicit
   reduction modulo 2 to the 32, and fallible code returns Except or Option. -/

namespace PhotoShare

/-- ASCII lowercase of one character; models Python str.lower restricted to
ASCII data such as hex digests. -/
def lowerChar (c : Char) : Char :=
  if 'A' ≤ c ∧ c ≤ 'Z' then Char.ofNat (c.toNat + 32) else c

/-- ASCII lowercase of a string; models Python str.lower on ASCII strings. -/
def pyLower (s : String) : String := String.mk (s.data.map lowerChar)

/-- ASCII uppercase of one character; models Python str.upper restricted to
ASCII data. -/
def upperChar (c : Char) : Char :=
  if 'a' ≤ c ∧ c ≤ 'z' then Char.ofNat (c.toNat - 32) else c

/-- ASCII uppercase of a string; models Python str.upper on ASCII strings. -/
def pyUpper (s : String) : String := String.mk (s.data.map upperChar)

/-- UTF-8 encoding of a single Unicode code point as a list of byte values. -/
def utf8EncodeChar (c : Char) : List Nat :=
  let n := c.toNat
  if n < 0x80 then [n]
  else if n < 0x800 then [0xC0 + n / 0x40, 0x80 + n % 0x40]
  else if n < 0x10000 then
    [0xE0 + n / 0x1000, 0x80 + (n / 0x40) % 0x40, 0x80 + n % 0x40]
  else
    [0xF0 + n / 0x40000, 0x80 + (n / 0x1000) % 0x40,
     0x80 + (n / 0x40) % 0x40, 0x80 + n % 0x40]

/-- UTF-8 encoding of a string as a list of byte values; models
Python str.encode with encoding utf-8. -/
def utf8Encode (s : String) : List Nat := (s.data.map utf8EncodeChar).flatten

/-- the modulus for 32-bit words. -/
def M32 : Nat := 4294967296

/-- right rotation of a 32-bit word by n bits. -/
def rotr (n x : Nat) : Nat := x / 2 ^ n + x % 2 ^ n * 2 ^ (32 - n)

/-- right shift of a 32-bit word by n bits. -/
def shr (n x : Nat) : Nat := x / 2 ^ n

/-- the ch mixing function of SHA-256. -/
def shaCh (e f g : Nat) : Nat :=
  Nat.xor (Nat.land e f) (Nat.land (Nat.xor e (M32 - 1)) g)

/-- the maj mixing function of SHA-256. -/
def shaMaj (a b c : Nat) : Nat :=
  Nat.xor (Nat.xor (Nat.land a b) (Nat.land a c)) (Nat.land b c)

/-- the big sigma-0 function of SHA-256. -/
def bigSigma0 (x : Nat) : Nat := Nat.xor (Nat.xor (rotr 2 x) (rotr 13 x)) (rotr 22 x)

/-- the big sigma-1 function of SHA-256. -/
def bigSigma1 (x : Nat) : Nat := Nat.xor (Nat.xor (rotr 6 x) (rotr 11 x)) (rotr 25 x)

/-- the small sigma-0 function of SHA-256. -/
def smallSigma0 (x : Nat) : Nat := Nat.xor (Nat.xor (rotr 7 x) (rotr 18 x)) (shr 3 x)

/-- the small sigma-1 function of SHA-256. -/
def smallSigma1 (x : Nat) : Nat := Nat.xor (Nat.xor (rotr 17 x) (rotr 19 x)) (shr 10 x)

/-- the 64 round constants of SHA-256. -/
def sha256K : List Nat :=
  [1116352408, 1899447441, 3049323471, 3921009573, 961987163,
   1508970993, 2453635748, 2870763221, 3624381080, 310598401,
   607225278, 1426881987, 1925078388, 2162078206, 2614888103,
   3248222580, 3835390401, 4022224774, 264347078, 604807628,
   770255983, 1249150122, 1555081692, 1996064986, 2554220882,
   2821834349, 2952996808, 3210313671, 3336571891, 3584528711,
   113926993, 338241895, 666307205, 773529912, 1294757372,
   1396182291, 1695183700, 1986661051, 2177026350, 2456956037,
   2730485921, 2820302411, 3259730800, 3345764771, 3516065817,
   3600352804, 4094571909, 275423344, 430227734, 506948616,
   659060556, 883997877, 958139571, 1322822218, 1537002063,
   1747873779, 1955562222, 2024104815, 2227730452, 2361852424,
   2428436474, 2756734187, 3204031479, 3329325298]

/-- the initial hash state of SHA-256. -/
def sha256H0 : List Nat :=
  [1779033703, 3144134277, 1013904242, 2773480762,
   1359893119, 2600822924, 528734635, 1541459225]

/-- big-endian 8-byte encoding of a natural number. -/
def be8 (n : Nat) : List Nat :=
  [n / 2 ^ 56 % 256, n / 2 ^ 48 % 256, n / 2 ^ 40 % 256, n / 2 ^ 32 % 256,
   n / 2 ^ 24 % 256, n / 2 ^ 16 % 256, n / 2 ^ 8 % 256, n % 256]

/-- SHA-256 padding: append the 0x80 marker, zero bytes, and the bit length,
reaching a multiple of 64 bytes. -/
def sha256Pad (msg : List Nat) : List Nat :=
  let z := (64 - (msg.length + 9) % 64) % 64
  msg ++ [0x80] ++ List.replicate z 0 ++ be8 (8 * msg.length)

/-- grouping of bytes into big-endian 32-bit words, four bytes per word. -/
def bytesToWords : List Nat → List Nat
  | b0 :: b1 :: b2 :: b3 :: rest =>
      (b0 * 0x1000000 + b1 * 0x10000 + b2 * 0x100 + b3) :: bytesToWords rest
  | _ => []

/-- big-endian byte encoding of one 32-bit word. -/
def wordBE (w : Nat) : List Nat :=
  [w / 0x1000000 % 256, w / 0x10000 % 256, w / 0x100 % 256, w % 256]

/-- the SHA-256 message schedule expansion, adding one word per step. -/
def expandLoop : Nat → List Nat → List Nat
  | 0, w => w
  | k + 1, w =>
      let i := w.length
      let wNew := (smallSigma1 (w.getD (i - 2) 0) + w.getD (i - 7) 0 +
                   smallSigma0 (w.getD (i - 15) 0) + w.getD (i - 16) 0) % M32
      expandLoop k (w ++ [wNew])

/-- one round of the SHA-256 compression function on an 8-word state. -/
def compressRound (st : List Nat) (kw : Nat × Nat) : List Nat :=
  match st with
  | [a, b, c, d, e, f, g, h] =>
      let t1 := (h + bigSigma1 e + shaCh e f g + kw.1 + kw.2) % M32
      let t2 := (bigSigma0 a + shaMaj a b c) % M32
      [(t1 + t2) % M32, a, b, c, (d + t1) % M32, e, f, g]
  | other => other

/-- processing of one 64-byte chunk into the running hash state. -/
def compressChunk (h : List Nat) (chunk : List Nat) : List Nat :=
  let w := expandLoop 48 (bytesToWords chunk)
  let st := (sha256K.zip w).foldl compressRound h
  (h.zip st).map (fun p => (p.1 + p.2) % M32)

/-- fuel-bounded iteration over the 64-byte chunks of a padded message. -/
def sha256Chunks : Nat → List Nat → List Nat → List Nat
  | 0, h, _ => h
  | f + 1, h, msg =>
      if msg.isEmpty then h
      else sha256Chunks f (compressChunk h (msg.take 64)) (msg.drop 64)

/-- SHA-256 of a byte list, as a 32-byte digest. -/
def sha256 (msg : List Nat) : List Nat :=
  let padded := sha256Pad msg
  let hfin := sha256Chunks (padded.length + 1) sha256H0 padded
  (hfin.map wordBE).flatten

/-- a lowercase hexadecimal digit character. -/
def hexDigitChar (d : Nat) : Char :=
  if d < 10 then Char.ofNat (48 + d) else Char.ofNat (87 + d)

/-- lowercase hexadecimal rendering of a byte list; models hexdigest output. -/
def hexOfBytes (bytes : List Nat) : String :=
  String.mk ((bytes.map (fun b => [hexDigitChar (b / 16), hexDigitChar (b % 16)])).flatten)

/-- HMAC-SHA256 over byte lists, per RFC 2104 as implemented by the Python
hmac module with digestmod sha256. -/
def hmacSha256 (key msg : List Nat) : List Nat :=
  let k1 := if key.length > 64 then sha256 key else key
  let k2 := k1 ++ List.replicate (64 - k1.length) 0
  let ipadded := k2.map (fun b => Nat.xor b 0x36)
  let opadded := k2.map (fun b => Nat.xor b 0x5c)
  sha256 (opadded ++ sha256 (ipadded ++ msg))

/-- lowercase hex digest of HMAC-SHA256, as returned by hexdigest in auth.py. -/
def hmacSha256Hex (key msg : List Nat) : String := hexOfBytes (hmacSha256 key msg)

/-- a decimal digit character for a value below ten. -/
def digitChar (d : Nat) : Char := Char.ofNat (48 + d % 10)

/-- fuel-bounded decimal digits of a natural number, least significant first. -/
def natDigitsRev : Nat → Nat → List Nat
  | 0, _ => []
  | f + 1, n => if n = 0 then [] else n % 10 :: natDigitsRev f (n / 10)

/-- decimal rendering of a natural number; models Python str on a
nonnegative int, as used for the X-Timestamp header. -/
def natToStr (n : Nat) : String :=
  if n = 0 then "0" else String.mk ((natDigitsRev (n + 1) n).reverse.map digitChar)

/-- ASCII whitespace recognized by Python int parsing (modelled subset). -/
def isPyWs (c : Char) : Bool :=
  c = ' ' || c = '\t' || c = '\n' || c = '\r' || c = '\x0b' || c = '\x0c'

/-- removal of leading and trailing whitespace characters. -/
def stripWs (l : List Char) : List Char :=
  ((l.dropWhile isPyWs).reverse.dropWhile isPyWs).reverse

/-- accumulation of decimal digits, allowing a single underscore between two
digits, as Python int literal parsing does. -/
def digitsAux : List Char → Nat → Option Nat
  | [], acc => some acc
  | c :: rest, acc =>
    if c.isDigit then digitsAux rest (acc * 10 + (c.toNat - 48))
    else if c = '_' then
      match rest with
      | [] => none
      | c2 :: rest2 =>
          if c2.isDigit then digitsAux rest2 (acc * 10 + (c2.toNat - 48)) else none
    else none

/-- parsing of a nonempty digit group that must not start with an underscore. -/
def parseDecDigits (l : List Char) : Option Nat :=
  match l with
  | [] => none
  | c :: _ => if c = '_' then none else digitsAux l 0

/-- sign handling of integer parsing on the whitespace-stripped character list. -/
def pyParseIntLoop : List Char → Option Int
  | [] => none
  | c :: rest =>
    if c = '-' then (parseDecDigits rest).map (fun k => -(k : Int))
    else if c = '+' then (parseDecDigits rest).map (fun k => (k : Int))
    else (parseDecDigits (c :: rest)).map (fun k => (k : Int))

/-- the integer value of a string, or none when the string is not a valid
integer literal; models Python int(str) with its ValueError as none. -/
def pyParseInt (s : String) : Option Int := pyParseIntLoop (stripWs s.data)

/-- the canonical signing message of auth.py, method colon path colon timestamp. -/
def authMessage (method path timestamp : String) : String :=
  method ++ ":" ++ path ++ ":" ++ timestamp

/-- the hex HMAC-SHA256 signature that auth.py computes over the canonical
message with the shared secret as key. -/
def expectedSignature (method path timestamp secret : String) : String :=
  hmacSha256Hex (utf8Encode secret) (utf8Encode (authMessage method path timestamp))

/-- the pair of authentication headers produced for one request. -/
structure AuthHeaders where
  xTimestamp : String
  xSignature : String
deriving DecidableEq

/-- generate_auth_headers of auth.py: the current integer Unix time is
rendered as the timestamp and signed together with method and path. -/
def generate_auth_headers (method path secret : String) (now : Nat) : AuthHeaders :=
  ⟨natToStr now, expectedSignature method path (natToStr now) secret⟩

/-- verify_signature of auth.py: parse the timestamp (ValueError gives false),
reject when the absolute age exceeds max_age_seconds, then compare the
lowercased supplied signature with the lowercased recomputed one. -/
def verify_signature (method path timestamp signature secret : String)
    (maxAge : Nat) (now : Int) : Bool :=
  match pyParseInt timestamp with
  | none => false
  | some t =>
      if (now - t).natAbs > maxAge then false
      else pyLower signature == pyLower (expectedSignature method path timestamp secret)

lemma natDigitsRev_lt (f : Nat) : ∀ n, ∀ d ∈ natDigitsRev f n, d < 10 := by
  induction f with
  | zero => intro n d hd; simp [natDigitsRev] at hd
  | succ f ih =>
      intro n d hd
      by_cases h0 : n = 0
      · simp [natDigitsRev, h0] at hd
      · simp only [natDigitsRev, if_neg h0, List.mem_cons] at hd
        rcases hd with h | h
        · omega
        · exact ih _ d h

lemma natDigitsRev_foldr (f : Nat) : ∀ n, n < f →
    (natDigitsRev f n).foldr (fun d acc => acc * 10 + d) 0 = n := by
  induction f with
  | zero => intro n h; omega
  | succ f ih =>
      intro n h
      by_cases h0 : n = 0
      · simp [natDigitsRev, h0]
      · simp only [natDigitsRev, if_neg h0, List.foldr_cons]
        rw [ih (n / 10) (by omega)]
        omega

lemma digitChar_facts (d : Nat) (hd : d < 10) :
    (digitChar d).isDigit = true ∧ (digitChar d).toNat - 48 = d ∧
    digitChar d ≠ '_' ∧ digitChar d ≠ '-' ∧ digitChar d ≠ '+' ∧
    isPyWs (digitChar d) = false := by
  interval_cases d <;> decide

lemma dropWhile_all_false (p : Char → Bool) :
    ∀ l : List Char, (∀ c ∈ l, p c = false) → l.dropWhile p = l := by
  intro l hl
  cases l with
  | nil => rfl
  | cons c cs => simp [List.dropWhile, hl c (by simp)]

lemma stripWs_all_not_ws (l : List Char) (hl : ∀ c ∈ l, isPyWs c = false) :
    stripWs l = l := by
  unfold stripWs
  rw [dropWhile_all_false _ l hl,
      dropWhile_all_false _ l.reverse (by intro c hc; exact hl c (List.mem_reverse.mp hc)),
      List.reverse_reverse]

lemma digitsAux_all_digits : ∀ l : List Char, ∀ acc,
    (∀ c ∈ l, c.isDigit = true) →
    digitsAux l acc = some (l.foldl (fun a c => a * 10 + (c.toNat - 48)) acc) := by
  intro l
  induction l with
  | nil => intro acc _; rfl
  | cons c cs ih =>
      intro acc hall
      have hc : c.isDigit = true := hall c (by simp)
      rw [List.foldl_cons,
          show digitsAux (c :: cs) acc = digitsAux cs (acc * 10 + (c.toNat - 48)) by
            rw [digitsAux.eq_def]; simp [hc]]
      exact ih _ (fun x hx => hall x (by simp [hx]))

lemma not_special_of_isDigit (x : Char) (hx : x.isDigit = true) :
    x ≠ '-' ∧ x ≠ '+' ∧ x ≠ '_' := by
  refine ⟨?_, ?_, ?_⟩ <;> (intro hxx; subst hxx; exact absurd hx (by decide))

lemma parseDecDigits_all_digits (l : List Char) (hne : l ≠ [])
    (hall : ∀ c ∈ l, c.isDigit = true) :
    parseDecDigits l = some (l.foldl (fun a c => a * 10 + (c.toNat - 48)) 0) := by
  cases l with
  | nil => exact absurd rfl hne
  | cons c cs =>
      have hc := hall c (by simp)
      simp only [parseDecDigits, if_neg (not_special_of_isDigit c hc).2.2]
      exact digitsAux_all_digits _ 0 hall

lemma pyParseIntLoop_all_digits (l : List Char) (hne : l ≠ [])
    (hall : ∀ c ∈ l, c.isDigit = true) :
    pyParseIntLoop l =
      some ((l.foldl (fun a c => a * 10 + (c.toNat - 48)) 0 : Nat) : Int) := by
  cases l with
  | nil => exact absurd rfl hne
  | cons c cs =>
      have hc := hall c (by simp)
      simp only [pyParseIntLoop, if_neg (not_special_of_isDigit c hc).1,
                 if_neg (not_special_of_isDigit c hc).2.1,
                 parseDecDigits_all_digits (c :: cs) (by simp) hall]
      rfl

lemma foldl_map_digitChar : ∀ l : List Nat, ∀ acc, (∀ d ∈ l, d < 10) →
    (l.map digitChar).foldl (fun a c => a * 10 + (c.toNat - 48)) acc =
      l.foldl (fun a d => a * 10 + d) acc := by
  intro l
  induction l with
  | nil => intro _ _; rfl
  | cons d ds ih =>
      intro acc hall
      simp only [List.map_cons, List.foldl_cons]
      rw [(digitChar_facts d (hall d (by simp))).2.1]
      exact ih _ (fun x hx => hall x (by simp [hx]))

/-- the decimal rendering of a natural number parses back to that number. -/
lemma pyParseInt_natToStr (n : Nat) : pyParseInt (natToStr n) = some (n : Int) := by
  by_cases h0 : n = 0
  · subst h0; decide
  · have hdig : ∀ d ∈ natDigitsRev (n + 1) n, d < 10 := natDigitsRev_lt _ n
    have hdigrev : ∀ d ∈ (natDigitsRev (n + 1) n).reverse, d < 10 := by
      intro d hd; exact hdig d (List.mem_reverse.mp hd)
    have hchars : ∀ c ∈ (natDigitsRev (n + 1) n).reverse.map digitChar,
        c.isDigit = true := by
      intro c hc
      simp only [List.mem_map, List.mem_reverse] at hc
      obtain ⟨d, hd, rfl⟩ := hc
      exact (digitChar_facts d (hdig d hd)).1
    have hdata : (natToStr n).data = (natDigitsRev (n + 1) n).reverse.map digitChar := by
      simp [natToStr, if_neg h0]
    have hne : natDigitsRev (n + 1) n ≠ [] := by
      cases hh : natDigitsRev (n + 1) n with
      | nil => simp [natDigitsRev, if_neg h0] at hh
      | cons a as => simp
    have hnemap : (natDigitsRev (n + 1) n).reverse.map digitChar ≠ [] := by
      simpa using hne
    unfold pyParseInt
    rw [hdata, stripWs_all_not_ws _ (by
      intro c hc
      simp only [List.mem_map, List.mem_reverse] at hc
      obtain ⟨d, hd, rfl⟩ := hc
      exact (digitChar_facts d (hdig d hd)).2.2.2.2.2),
      pyParseIntLoop_all_digits _ hnemap hchars,
      foldl_map_digitChar _ 0 hdigrev, List.foldl_reverse,
      show (fun (x : Nat) (y : Nat) => y * 10 + x) = (fun d acc => acc * 10 + d) from rfl,
      natDigitsRev_foldr _ n (by omega)]

/-- the part of a character list before the first occurrence of the
separator; models the zero index of a Python single-character str.split. -/
def pySplitFirst : List Char → Char → List Char
  | [], _ => []
  | c :: cs, sep => if c = sep then [] else c :: pySplitFirst cs sep

/-- the canonical signing path of _make_request in sync.py: the request path
with everything from the first question mark on removed. -/
def signPath (path : String) : String := String.mk (pySplitFirst path.data '?')

/-- an outgoing wire request together with its authentication headers. -/
structure Request where
  method : String
  path : String
  xTimestamp : String
  xSignature : String
deriving DecidableEq

/-- _make_request of sync.py: the headers are generated over the query-free
signing path while the full path goes on the wire. -/
def makeRequest (method path secret : String) (now : Nat) : Request :=
  let headers := generate_auth_headers method (signPath path) secret now
  ⟨method, path, headers.xTimestamp, headers.xSignature⟩

/-- the request path chosen by list_photos of sync.py: a bare /photos when no
cursor is stored, else /photos with a since query parameter. -/
def listPhotosPath : Option String → String
  | none => "/photos"
  | some c => "/photos?since=" ++ c

/-- the request that list_photos issues for a given optional cursor. -/
def listPhotosRequest (since : Option String) (secret : String) (now : Nat) : Request :=
  makeRequest "GET" (listPhotosPath since) secret now

lemma pySplitFirst_append_sep (sep : Char) :
    ∀ l1 l2 : List Char, (∀ c ∈ l1, c ≠ sep) →
      pySplitFirst (l1 ++ sep :: l2) sep = l1 := by
  intro l1
  induction l1 with
  | nil => intro l2 _; simp [pySplitFirst]
  | cons c cs ih =>
      intro l2 hl
      simp only [List.cons_append, pySplitFirst, if_neg (hl c (by simp))]
      rw [show cs.append (sep :: l2) = cs ++ sep :: l2 from rfl,
          ih l2 (fun x hx => hl x (by simp [hx]))]

lemma signPath_since (c : String) : signPath ("/photos?since=" ++ c) = "/photos" := by
  unfold signPath
  rw [show ("/photos?since=" ++ c).data =
        "/photos".data ++ '?' :: ("since=".data ++ c.data) by
      rw [String.data_append]; rfl]
  rw [pySplitFirst_append_sep '?' _ _ (by decide)]

/-- C2: every outgoing request is signed over the request path with the query
string removed even though the wire request keeps the query: a first sync
with no cursor issues GET /photos with no since parameter, a sync with a
stored cursor c issues GET /photos?since=c, and both are signed over the
bare path /photos. -/
theorem C2_signs_path_without_query :
    (∀ p q : String, (∀ ch ∈ p.data, ch ≠ '?') → signPath (p ++ "?" ++ q) = p) ∧
    listPhotosPath none = "/photos" ∧
    (∀ c : String, listPhotosPath (some c) = "/photos?since=" ++ c) ∧
    (∀ secret : String, ∀ now : Nat, listPhotosRequest none secret now =
        ⟨"GET", "/photos", natToStr now,
         expectedSignature "GET" "/photos" (natToStr now) secret⟩) ∧
    (∀ c secret : String, ∀ now : Nat, listPhotosRequest (some c) secret now =
        ⟨"GET", "/photos?since=" ++ c, natToStr now,
         expectedSignature "GET" "/photos" (natToStr now) secret⟩) := by
  refine ⟨?_, rfl, fun c => rfl, fun secret now => rfl, ?_⟩
  · intro p q hp
    unfold signPath
    rw [show (p ++ "?" ++ q).data = p.data ++ '?' :: q.data by
          rw [String.data_append, String.data_append]; simp,
        pySplitFirst_append_sep '?' _ _ hp]
  · intro c secret now
    unfold listPhotosRequest makeRequest
    rw [show listPhotosPath (some c) = "/photos?since=" ++ c from rfl, signPath_since]
    rfl

/-- a witness instantiating the quantified parts of the C2 theorem at the
cursor value of the end-to-end scenario in the spec. -/
theorem C2_witness :
    signPath ("/photos" ++ "?" ++ "since=1700000000") = "/photos" ∧
    listPhotosRequest (some "1700000000") "secret" 1700000100 =
      ⟨"GET", "/photos?since=" ++ "1700000000", natToStr 1700000100,
       expectedSignature "GET" "/photos" (natToStr 1700000100) "secret"⟩ :=
  ⟨C2_signs_path_without_query.1 "/photos" "since=1700000000" (by decide),
   C2_signs_path_without_query.2.2.2.2 "1700000000" "secret" 1700000100⟩

/-- C3: a signature produced by generate_auth_headers for a method, path and
secret verifies successfully with the same method, path and secret whenever
the verification time is within max_age_seconds of the signing time. -/
theorem C3_sign_verify_roundtrip (method path secret : String) (signTime : Nat)
    (maxAge : Nat) (now : Int)
    (hage : (now - (signTime : Int)).natAbs ≤ maxAge) :
    verify_signature method path
      (generate_auth_headers method path secret signTime).xTimestamp
      (generate_auth_headers method path secret signTime).xSignature
      secret maxAge now = true := by
  show verify_signature method path (natToStr signTime)
      (expectedSignature method path (natToStr signTime) secret) secret maxAge now = true
  unfold verify_signature
  rw [pyParseInt_natToStr]
  show (if (now - (signTime : Int)).natAbs > maxAge then false
        else pyLower (expectedSignature method path (natToStr signTime) secret) ==
          pyLower (expectedSignature method path (natToStr signTime) secret)) = true
  rw [if_neg (by omega)]
  exact beq_self_eq_true _

/-- a witness applying the C3 round trip at concrete inputs. -/
theorem C3_witness :
    verify_signature "GET" "/photos"
      (generate_auth_headers "GET" "/photos" "secret" 1700000000).xTimestamp
      (generate_auth_headers "GET" "/photos" "secret" 1700000000).xSignature
      "secret" 300 1700000000 = true :=
  C3_sign_verify_roundtrip "GET" "/photos" "secret" 1700000000 300 1700000000 (by decide)

/-- C4: verify_signature returns false, without raising, when the timestamp
does not parse as an integer; returns false when the absolute age exceeds
max_age_seconds; still proceeds at the exact boundary; and otherwise accepts
exactly when the supplied signature equals the recomputed one after
lowercasing, so hex-digit case differences are ignored. -/
theorem C4_verify_error_paths :
    (∀ method path ts sig secret : String, ∀ maxAge : Nat, ∀ now : Int,
        pyParseInt ts = none →
        verify_signature method path ts sig secret maxAge now = false) ∧
    (∀ method path ts sig secret : String, ∀ maxAge : Nat, ∀ now t : Int,
        pyParseInt ts = some t → (now - t).natAbs > maxAge →
        verify_signature method path ts sig secret maxAge now = false) ∧
    (∀ method path ts sig secret : String, ∀ maxAge : Nat, ∀ now t : Int,
        pyParseInt ts = some t → (now - t).natAbs = maxAge →
        pyLower sig = pyLower (expectedSignature method path ts secret) →
        verify_signature method path ts sig secret maxAge now = true) ∧
    (∀ method path ts sig secret : String, ∀ maxAge : Nat, ∀ now t : Int,
        pyParseInt ts = some t → (now - t).natAbs ≤ maxAge →
        (verify_signature method path ts sig secret maxAge now = true ↔
          pyLower sig = pyLower (expectedSignature method path ts secret))) := by
  refine ⟨?_, ?_, ?_, ?_⟩
  · intro method path ts sig secret maxAge now hp
    unfold verify_signature
    rw [hp]
  · intro method path ts sig secret maxAge now t hp hgt
    unfold verify_signature
    rw [hp]
    show (if (now - t).natAbs > maxAge then false else _) = false
    rw [if_pos hgt]
  · intro method path ts sig secret maxAge now t hp hb heq
    unfold verify_signature
    rw [hp]
    show (if (now - t).natAbs > maxAge then false
          else pyLower sig == pyLower (expectedSignature method path ts secret)) = true
    rw [if_neg (by omega), heq]
    exact beq_self_eq_true _
  · intro method path ts sig secret maxAge now t hp hle
    unfold verify_signature
    rw [hp]
    show (if (now - t).natAbs > maxAge then false
          else pyLower sig == pyLower (expectedSignature method path ts secret)) = true ↔ _
    rw [if_neg (by omega)]
    exact beq_iff_eq

set_option maxRecDepth 1000000 in
/-- a witness for the C4 theorem: a non-numeric timestamp is rejected, an
expired timestamp is rejected, and at the exact age boundary an uppercased
copy of the valid signature is accepted. -/
theorem C4_witness :
    verify_signature "GET" "/photos" "not-a-number" "deadbeef" "secret" 300 100 = false ∧
    verify_signature "GET" "/photos" "100" "deadbeef" "secret" 300 401 = false ∧
    verify_signature "GET" "/photos" "100"
      (pyUpper (expectedSignature "GET" "/photos" "100" "secret")) "secret" 300 400 = true :=
  ⟨C4_verify_error_paths.1 "GET" "/photos" "not-a-number" "deadbeef" "secret" 300 100
      (by decide),
   C4_verify_error_paths.2.1 "GET" "/photos" "100" "deadbeef" "secret" 300 401 100
      (by decide) (by decide),
   C4_verify_error_paths.2.2.1 "GET" "/photos" "100"
      (pyUpper (expectedSignature "GET" "/photos" "100" "secret")) "secret" 300 400 100
      (by decide) (by decide) (by decide)⟩

/-- replacement of every occurrence of a single character by a replacement
list; models Python str.replace with a one-character old value. -/
def pyReplaceChar (s : List Char) (old : Char) (new : List Char) : List Char :=
  (s.map (fun c => if c = old then new else [c])).flatten

/-- the invalid filename characters listed in _sanitize_filename of sync.py. -/
def invalidChars : List Char := "<>:\"/\\|?*".data

/-- _sanitize_filename of sync.py: each invalid character is replaced by an
underscore, one replace pass per invalid character. -/
def sanitizeFilename (filename : String) : String :=
  String.mk (invalidChars.foldl (fun acc ch => pyReplaceChar acc ch ['_']) filename.data)

/-- stem and suffix of a file name as computed by pathlib: the suffix starts
at the last dot when that dot is neither leading nor trailing. -/
def splitExt (name : List Char) : List Char × List Char :=
  match name.reverse.findIdx? (fun c => c = '.') with
  | none => (name, [])
  | some j =>
      let i := name.length - 1 - j
      if 0 < i ∧ i < name.length - 1 then (name.take i, name.drop i) else (name, [])

/-- the candidate names tried by the duplicate-filename loop of sync.py: the
desired name itself, then stem_1suffix, stem_2suffix and so on, always built
from the stem and suffix of the original name. -/
def candName (name : String) (k : Nat) : String :=
  if k = 0 then name
  else String.mk ((splitExt name.data).1 ++ '_' :: (natToStr k).data ++ (splitExt name.data).2)

/-- the while loop over existing files of sync.py, fuel-bounded: starting at
candidate index k, advance while the candidate is an existing name. -/
def resolveAux (dir : List String) (cand : Nat → String) : Nat → Nat → String
  | 0, k => cand k
  | f + 1, k => if cand k ∈ dir then resolveAux dir cand f (k + 1) else cand k

/-- collision resolution against a directory snapshot; fuel dir.length + 2 is
enough for the loop to reach a free candidate, as proved below. -/
def resolveName (dir : List String) (name : String) : String :=
  resolveAux dir (candName name) (dir.length + 2) 0

/-- the filename resolution performed by the download paths of sync.py:
sanitize the desired name, then resolve collisions. -/
def resolveFilename (dir : List String) (desired : String) : String :=
  resolveName dir (sanitizeFilename desired)

lemma pyReplaceChar_map (old : Char) : ∀ s : List Char,
    pyReplaceChar s old ['_'] = s.map (fun c => if c = old then '_' else c) := by
  intro s
  induction s with
  | nil => rfl
  | cons c cs ih =>
      have ihu : (cs.map (fun c => if c = old then ['_'] else [c])).flatten =
          cs.map (fun c => if c = old then '_' else c) := by
        simpa [pyReplaceChar] using ih
      by_cases h : c = old
      · simp [pyReplaceChar, h, ihu]
      · simp [pyReplaceChar, h, ihu]

lemma data_mk (l : List Char) : (String.mk l).data = l := rfl

lemma string_ext (a b : String) (h : a.data = b.data) : a = b := by
  cases a; cases b; exact congrArg String.mk h

lemma sanitizeFilename_data (s : String) :
    (sanitizeFilename s).data =
      s.data.map (fun c => if c ∈ invalidChars then '_' else c) := by
  rw [sanitizeFilename.eq_def, data_mk,
      show invalidChars = ['<', '>', ':', '"', '/', '\\', '|', '?', '*'] from rfl]
  simp only [List.foldl_cons, List.foldl_nil, pyReplaceChar_map, List.map_map]
  refine List.map_congr_left ?_
  intro c _
  by_cases hc : c ∈ invalidChars
  · rw [show invalidChars = ['<', '>', ':', '"', '/', '\\', '|', '?', '*'] from rfl] at hc
    simp only [List.mem_cons, List.not_mem_nil, or_false] at hc
    rcases hc with rfl | rfl | rfl | rfl | rfl | rfl | rfl | rfl | rfl <;> rfl
  · have hc9 : ¬c = '<' ∧ ¬c = '>' ∧ ¬c = ':' ∧ ¬c = '"' ∧ ¬c = '/' ∧
        ¬c = '\\' ∧ ¬c = '|' ∧ ¬c = '?' ∧ ¬c = '*' := by
      rw [show invalidChars = ['<', '>', ':', '"', '/', '\\', '|', '?', '*'] from rfl] at hc
      simp only [List.mem_cons, List.not_mem_nil, or_false] at hc
      push_neg at hc
      exact hc
    simp [Function.comp, hc, hc9.1, hc9.2.1, hc9.2.2.1, hc9.2.2.2.1, hc9.2.2.2.2.1,
          hc9.2.2.2.2.2.1, hc9.2.2.2.2.2.2.1, hc9.2.2.2.2.2.2.2.1, hc9.2.2.2.2.2.2.2.2]

lemma natToStr_inj (m n : Nat) (h : natToStr m = natToStr n) : m = n := by
  have hm := pyParseInt_natToStr m
  rw [h, pyParseInt_natToStr n] at hm
  have := Option.some.inj hm
  omega

lemma candName_inj (name : String) (k1 k2 : Nat)
    (h : candName name (k1 + 1) = candName name (k2 + 1)) : k1 = k2 := by
  unfold candName at h
  rw [if_neg (Nat.succ_ne_zero k1), if_neg (Nat.succ_ne_zero k2)] at h
  have hd : (splitExt name.data).1 ++ '_' :: (natToStr (k1 + 1)).data ++ (splitExt name.data).2 =
      (splitExt name.data).1 ++ '_' :: (natToStr (k2 + 1)).data ++ (splitExt name.data).2 := by
    have := congrArg String.data h
    rwa [data_mk, data_mk] at this
  have h2 := List.append_cancel_left (List.append_cancel_right hd)
  rw [List.cons.injEq] at h2
  have h4 : natToStr (k1 + 1) = natToStr (k2 + 1) := string_ext _ _ h2.2
  have := natToStr_inj _ _ h4
  omega

lemma exists_free_cand (dir : List String) (cand : Nat → String)
    (hinj : ∀ k1 k2 : Nat, cand (k1 + 1) = cand (k2 + 1) → k1 = k2) :
    ∃ j, j < dir.length + 2 ∧ cand j ∉ dir := by
  by_contra hall
  push_neg at hall
  have hmaps : ∀ i ∈ Finset.range (dir.length + 1), cand (i + 1) ∈ dir.toFinset := by
    intro i hi
    rw [List.mem_toFinset]
    rw [Finset.mem_range] at hi
    exact hall (i + 1) (by omega)
  have hinjOn : Set.InjOn (fun i => cand (i + 1)) (Finset.range (dir.length + 1)) := by
    intro a _ b _ hab
    exact hinj a b hab
  have hcard := Finset.card_le_card_of_injOn _ hmaps hinjOn
  rw [Finset.card_range] at hcard
  have := dir.toFinset_card_le
  omega

lemma resolveAux_succ (dir : List String) (cand : Nat → String) (f k : Nat) :
    resolveAux dir cand (f + 1) k =
      if cand k ∈ dir then resolveAux dir cand f (k + 1) else cand k := rfl

lemma resolveAux_not_mem (dir : List String) (cand : Nat → String) :
    ∀ f k, (∃ j, j < f ∧ cand (k + j) ∉ dir) → resolveAux dir cand f k ∉ dir := by
  intro f
  induction f with
  | zero => intro k ⟨j, hj, _⟩; omega
  | succ f ih =>
      intro k ⟨j, hj, hfree⟩
      rw [resolveAux_succ]
      by_cases hmem : cand k ∈ dir
      · rw [if_pos hmem]
        apply ih (k + 1)
        cases j with
        | zero => exact absurd hmem (by simpa using hfree)
        | succ j =>
            exact ⟨j, by omega, by rw [show k + 1 + j = k + (j + 1) by omega]; exact hfree⟩
      · rw [if_neg hmem]
        exact hmem

lemma resolveName_not_mem (dir : List String) (name : String) :
    resolveName dir name ∉ dir := by
  unfold resolveName
  apply resolveAux_not_mem
  obtain ⟨j, hj, hfree⟩ := exists_free_cand dir (candName name) (candName_inj name)
  exact ⟨j, hj, by simpa using hfree⟩

/-- C5: sanitization replaces exactly the nine invalid characters by an
underscore and leaves clean names unchanged; collision resolution appends
numeric suffixes before the extension until a free name is found, never
returning the name of an existing file; an existing IMG_1234.jpg resolves to
IMG_1234_1.jpg and then IMG_1234_2.jpg. -/
theorem C5_sanitize_and_collision_resolution :
    (∀ s : String, (sanitizeFilename s).data =
        s.data.map (fun c => if c ∈ invalidChars then '_' else c)) ∧
    (∀ s : String, (∀ c ∈ s.data, c ∉ invalidChars) → sanitizeFilename s = s) ∧
    (∀ dir : List String, ∀ desired : String, resolveFilename dir desired ∉ dir) ∧
    (∀ dir : List String, ∀ desired : String, sanitizeFilename desired ∉ dir →
        resolveFilename dir desired = sanitizeFilename desired) ∧
    sanitizeFilename "photo<>:\"/\\|?*.jpg" = "photo_________.jpg" ∧
    resolveFilename ["IMG_1234.jpg"] "IMG_1234.jpg" = "IMG_1234_1.jpg" ∧
    resolveFilename ["IMG_1234.jpg", "IMG_1234_1.jpg"] "IMG_1234.jpg" = "IMG_1234_2.jpg" := by
  refine ⟨sanitizeFilename_data, ?_, ?_, ?_, by decide, by decide, by decide⟩
  · intro s hs
    have h := sanitizeFilename_data s
    have h2 : s.data.map (fun c => if c ∈ invalidChars then '_' else c) =
        s.data.map id :=
      List.map_congr_left (fun c hc => if_neg (hs c hc))
    rw [h2, List.map_id] at h
    exact string_ext _ _ h
  · intro dir desired
    unfold resolveFilename
    exact resolveName_not_mem dir (sanitizeFilename desired)
  · intro dir desired hfree
    unfold resolveFilename resolveName
    rw [show dir.length + 2 = (dir.length + 1) + 1 from rfl, resolveAux_succ,
        if_neg (by simpa using hfree)]
    rfl

/-- a witness instantiating the hypothesis-bearing parts of the C5 theorem:
a clean name is unchanged, resolution against an existing file avoids the
directory, and a collision-free name resolves to itself. -/
theorem C5_witness :
    sanitizeFilename "IMG_1234.heic" = "IMG_1234.heic" ∧
    resolveFilename ["IMG_1234.jpg"] "IMG_1234.jpg" ∉ ["IMG_1234.jpg"] ∧
    resolveFilename ["other.jpg"] "photo.jpg" = sanitizeFilename "photo.jpg" :=
  ⟨C5_sanitize_and_collision_resolution.2.1 "IMG_1234.heic" (by decide),
   C5_sanitize_and_collision_resolution.2.2.1 ["IMG_1234.jpg"] "IMG_1234.jpg",
   C5_sanitize_and_collision_resolution.2.2.2.1 ["other.jpg"] "photo.jpg" (by decide)⟩

/-- a filesystem operation visible to concurrent readers of the state path. -/
inductive FsOp where
  | write (path : String) (content : String)
  | rename (src dst : String)
deriving DecidableEq

/-- the record save_sync_time writes: json.dumps of the one-field dict, with
the timestamp modelled by its decimal rendering t. -/
def syncStateRecord (t : String) : String := "\x7b\"last_sync_timestamp\": " ++ t ++ "\x7d"

/-- save_sync_time of sync.py as the sequence of filesystem operations it
performs: a single direct write_text of the record to the state file path. -/
def save_sync_time (stateFile t : String) : List FsOp :=
  [FsOp.write stateFile (syncStateRecord t)]

/-- the write-temp-then-rename discipline the spec claims for save: the
record is first written to a distinct temporary path which is then renamed
onto the state file, so readers only ever observe complete records. -/
def writesTempThenRename (stateFile : String) (ops : List FsOp) : Prop :=
  ∃ tmp content, tmp ≠ stateFile ∧
    ops = [FsOp.write tmp content, FsOp.rename tmp stateFile]

/-- C10 counterexample: at the concrete cursor 1700000000.0 the operations
performed by save_sync_time are not a write-temp-then-rename sequence; the
record is written directly to the state file, so a concurrent reader can
observe a partially-written file. -/
theorem C10_counterexample :
    ¬ writesTempThenRename ".sync_state" (save_sync_time ".sync_state" "1700000000.0") := by
  rintro ⟨tmp, content, hne, h⟩
  have := congrArg List.length h
  simp [save_sync_time] at this

/-- C10 (amended): save_sync_time writes the cursor record with one direct
write to the state file itself; it performs no rename and does not follow
the write-temp-then-rename discipline, so the write is not atomic with
respect to concurrent readers. -/
theorem C10_save_is_direct_write (stateFile t : String) :
    save_sync_time stateFile t = [FsOp.write stateFile (syncStateRecord t)] ∧
    (∀ op ∈ save_sync_time stateFile t, ∀ src dst : String, op ≠ FsOp.rename src dst) ∧
    ¬ writesTempThenRename stateFile (save_sync_time stateFile t) := by
  refine ⟨rfl, ?_, ?_⟩
  · intro op hop src dst
    simp only [save_sync_time, List.mem_singleton] at hop
    subst hop
    intro h
    exact FsOp.noConfusion h
  · rintro ⟨tmp, content, hne, h⟩
    have := congrArg List.length h
    simp [save_sync_time] at this

/-- a witness applying the amended C10 theorem at a concrete cursor. -/
theorem C10_witness :
    save_sync_time ".sync_state" "5.0" = [FsOp.write ".sync_state" (syncStateRecord "5.0")] ∧
    FsOp.write ".sync_state" (syncStateRecord "5.0") ≠ FsOp.rename "a" "b" :=
  ⟨(C10_save_is_direct_write ".sync_state" "5.0").1,
   (C10_save_is_direct_write ".sync_state" "5.0").2.1 _ (by simp [save_sync_time]) "a" "b"⟩

/-- a parsed JSON value; numbers keep their lexeme. -/
inductive Json where
  | null
  | bool (b : Bool)
  | num (lex : String)
  | str (s : String)
  | arr (items : List Json)
  | obj (fields : List (String × Json))

/-- removal of leading JSON whitespace. -/
def skipJsonWs (l : List Char) : List Char :=
  l.dropWhile (fun c => c = ' ' || c = '\t' || c = '\n' || c = '\r')

/-- a test whether the first list leads the second one element for element. -/
def startsWithSeq [DecidableEq α] : List α → List α → Bool
  | [], _ => true
  | _ :: _, [] => false
  | a :: as, b :: bs => if a = b then startsWithSeq as bs else false

/-- the value of a hexadecimal digit character. -/
def hexVal (c : Char) : Option Nat :=
  if c.isDigit then some (c.toNat - 48)
  else if 'a' ≤ c ∧ c ≤ 'f' then some (c.toNat - 87)
  else if 'A' ≤ c ∧ c ≤ 'F' then some (c.toNat - 55)
  else none

/-- the character named by a JSON backslash escape, apart from u-escapes. -/
def jsonEscChar (c : Char) : Option Char :=
  if c = '"' then some '"'
  else if c = '\\' then some '\\'
  else if c = '/' then some '/'
  else if c = 'b' then some '\x08'
  else if c = 'f' then some '\x0c'
  else if c = 'n' then some '\n'
  else if c = 'r' then some '\r'
  else if c = 't' then some '\t'
  else none

/-- the body of a JSON string after the opening quote: the decoded characters
and the remainder after the closing quote. Control characters are rejected
as in strict json.loads; u-escapes become the named code point. -/
def parseJStringAux : Nat → List Char → Option (List Char × List Char)
  | 0, _ => none
  | _ + 1, [] => none
  | f + 1, c :: rest =>
    if c = '"' then some ([], rest)
    else if c = '\\' then
      match rest with
      | [] => none
      | e :: rest2 =>
        if e = 'u' then
          match rest2 with
          | h1 :: h2 :: h3 :: h4 :: rest3 =>
            match hexVal h1, hexVal h2, hexVal h3, hexVal h4 with
            | some a, some b, some c2, some d =>
                (parseJStringAux f rest3).map
                  (fun p => (Char.ofNat (a * 4096 + b * 256 + c2 * 16 + d) :: p.1, p.2))
            | _, _, _, _ => none
          | _ => none
        else
          match jsonEscChar e with
          | some ec => (parseJStringAux f rest2).map (fun p => (ec :: p.1, p.2))
          | none => none
    else if c.toNat < 0x20 then none
    else (parseJStringAux f rest).map (fun p => (c :: p.1, p.2))

/-- the fraction part of a JSON number, possibly empty. -/
def parseJFrac : List Char → Option (List Char × List Char)
  | '.' :: r =>
      let ds := r.takeWhile Char.isDigit
      if ds.isEmpty then none else some ('.' :: ds, r.dropWhile Char.isDigit)
  | l => some ([], l)

/-- the exponent part of a JSON number, possibly empty. -/
def parseJExp : List Char → Option (List Char × List Char)
  | c :: r =>
      if c = 'e' || c = 'E' then
        let sr := match r with
          | s :: rr => if s = '+' || s = '-' then ([s], rr) else (([] : List Char), r)
          | [] => ([], ([] : List Char))
        let ds := sr.2.takeWhile Char.isDigit
        if ds.isEmpty then none
        else some (c :: sr.1 ++ ds, sr.2.dropWhile Char.isDigit)
      else some ([], c :: r)
  | [] => some ([], [])

/-- a JSON number lexeme at the head of the input and the remainder. -/
def parseJNumber (l : List Char) : Option (List Char × List Char) :=
  let sr := match l with
    | '-' :: r => ((['-'] : List Char), r)
    | _ => ([], l)
  let ip := sr.2.takeWhile Char.isDigit
  let r1 := sr.2.dropWhile Char.isDigit
  if ip.isEmpty then none
  else if ip.length > 1 && ip.headD 'x' = '0' then none
  else
    match parseJFrac r1 with
    | none => none
    | some (fp, r2) =>
      match parseJExp r2 with
      | none => none
      | some (ep, r3) => some (sr.1 ++ ip ++ fp ++ ep, r3)

mutual

/-- a JSON value at the head of the input, whitespace allowed before it;
models the recursive descent of json.loads, fuel-bounded. -/
def parseJValue : Nat → List Char → Option (Json × List Char)
  | 0, _ => none
  | f + 1, input =>
    let l := skipJsonWs input
    match l with
    | [] => none
    | '"' :: rest =>
        (parseJStringAux (rest.length + 1) rest).map
          (fun p => (Json.str (String.mk p.1), p.2))
    | '[' :: rest =>
        (match skipJsonWs rest with
         | ']' :: r2 => some (Json.arr [], r2)
         | r1 => (parseJArrayItems f r1).map (fun p => (Json.arr p.1, p.2)))
    | '{' :: rest =>
        (match skipJsonWs rest with
         | '}' :: r2 => some (Json.obj [], r2)
         | r1 => (parseJObjItems f r1).map (fun p => (Json.obj p.1, p.2)))
    | _ :: _ =>
        if startsWithSeq "null".data l then some (Json.null, l.drop 4)
        else if startsWithSeq "true".data l then some (Json.bool true, l.drop 4)
        else if startsWithSeq "false".data l then some (Json.bool false, l.drop 5)
        else if startsWithSeq "NaN".data l then some (Json.num "NaN", l.drop 3)
        else if startsWithSeq "Infinity".data l then some (Json.num "Infinity", l.drop 8)
        else if startsWithSeq "-Infinity".data l then some (Json.num "-Infinity", l.drop 9)
        else (parseJNumber l).map (fun p => (Json.num (String.mk p.1), p.2))

/-- the comma-separated items of a nonempty JSON array up to the closing
bracket. -/
def parseJArrayItems : Nat → List Char → Option (List Json × List Char)
  | 0, _ => none
  | f + 1, input =>
      match parseJValue f input with
      | none => none
      | some (v, r) =>
          match skipJsonWs r with
          | ',' :: r2 => (parseJArrayItems f r2).map (fun p => (v :: p.1, p.2))
          | ']' :: r2 => some ([v], r2)
          | _ => none

/-- the comma-separated key-value pairs of a nonempty JSON object up to the
closing brace. -/
def parseJObjItems : Nat → List Char → Option (List (String × Json) × List Char)
  | 0, _ => none
  | f + 1, input =>
      match skipJsonWs input with
      | '"' :: rest =>
          (match parseJStringAux (rest.length + 1) rest with
           | none => none
           | some (keyCs, r) =>
               match skipJsonWs r with
               | ':' :: r2 =>
                   (match parseJValue f r2 with
                    | none => none
                    | some (v, r3) =>
                        match skipJsonWs r3 with
                        | ',' :: r4 =>
                            (parseJObjItems f r4).map
                              (fun p => ((String.mk keyCs, v) :: p.1, p.2))
                        | '}' :: r4 => some ([(String.mk keyCs, v)], r4)
                        | _ => none)
               | _ => none)
      | _ => none

end

/-- json.loads of sync.py (get_last_sync_time): parse one JSON document and
require only whitespace after it; none models json.JSONDecodeError. -/
def json_loads (s : String) : Option Json :=
  match parseJValue (2 * s.length + 4) s.data with
  | some (v, rest) => if (skipJsonWs rest).isEmpty then some v else none
  | none => none

/-- dict lookup with the last duplicate key winning, as Python dict literals
built by json.loads behave; models state.get with default None. -/
def pyDictGet (fields : List (String × Json)) (key : String) : Option Json :=
  ((fields.filter (fun kv => kv.1 = key)).getLast?).map (fun kv => kv.2)

/-- a Python exception escaping a modelled code path. -/
inductive PyExn where
  | valueError
  | attributeError
  | indexError
deriving DecidableEq

/-- the state of the persisted cursor file as seen by get_last_sync_time. -/
inductive FileState where
  | missing
  | unreadable
  | content (s : String)

/-- get_last_sync_time of sync.py: none when the state file does not exist;
an unreadable file (IOError) and content that fails json.loads are caught
and give none; content that parses to a JSON object yields its
last_sync_timestamp field via dict get; content that parses to any other
JSON value raises AttributeError at state.get, which no handler catches. -/
def get_last_sync_time : FileState → Except PyExn (Option Json)
  | .missing => .ok none
  | .unreadable => .ok none
  | .content s =>
      match json_loads s with
      | none => .ok none
      | some (Json.obj fields) => .ok (pyDictGet fields "last_sync_timestamp")
      | some _ => .error .attributeError

/-- C9 counterexample: the content [] is corrupted state (it is not the
expected record), yet get_last_sync_time raises AttributeError at state.get
instead of treating it as no prior sync, because only json.JSONDecodeError
and IOError are caught. -/
theorem C9_counterexample :
    get_last_sync_time (.content "[]") = .error .attributeError := rfl

/-- C9 (amended): load returns absent when the state file is missing, when
reading it fails with IOError, and when its content fails to parse as JSON —
none of these raise; content parsing to a JSON object yields the stored
field via dict get; but content parsing to a non-object JSON value raises
AttributeError. -/
theorem C9_load_absent_on_parse_failure :
    get_last_sync_time .missing = .ok none ∧
    get_last_sync_time .unreadable = .ok none ∧
    (∀ s : String, json_loads s = none → get_last_sync_time (.content s) = .ok none) ∧
    (∀ s : String, ∀ fields : List (String × Json), json_loads s = some (.obj fields) →
        get_last_sync_time (.content s) = .ok (pyDictGet fields "last_sync_timestamp")) ∧
    get_last_sync_time (.content "not valid json") = .ok none := by
  refine ⟨rfl, rfl, ?_, ?_, rfl⟩
  · intro s hp
    simp only [get_last_sync_time, hp]
  · intro s fields hp
    simp only [get_last_sync_time, hp]

/-- a witness for the amended C9 theorem: truncated JSON content gives
absent, and a well-formed record gives its stored field. -/
theorem C9_witness :
    get_last_sync_time (.content "\x7b") = .ok none ∧
    get_last_sync_time (.content "\x7b\"last_sync_timestamp\": 1700000000\x7d") =
      .ok (pyDictGet [("last_sync_timestamp", Json.num "1700000000")] "last_sync_timestamp") :=
  ⟨C9_load_absent_on_parse_failure.2.2.1 "\x7b" (by rfl),
   C9_load_absent_on_parse_failure.2.2.2.1 "\x7b\"last_sync_timestamp\": 1700000000\x7d"
      [("last_sync_timestamp", Json.num "1700000000")] (by rfl)⟩

/-- the observable trace of one sync pass of sync.py: the photo ids for
which download_photo was invoked, in order; the cursor values written by
save_sync_time during the pass; and the pass outcome — the returned download
count, or the uncaught exception that aborted the pass. -/
structure SyncTrace where
  attempted : List String
  saves : List String
  outcome : Except PyExn Nat

/-- whether a download outcome counts in the downloaded tally: a returned
path is truthy; a Failed download (None) and a raising download are not. -/
def isSavedOutcome (r : Except PyExn (Option String)) : Bool :=
  match r with
  | .ok (some _) => true
  | _ => false

/-- the per-photo loop inside sync of sync.py: photos are processed front to
back; the oracle dl gives the outcome of each download_photo call — ok none
for a Failed download, ok (some path) for a success, and error e for an
uncaught exception such as the ValueError established by C6_counterexample.
An exception aborts the loop at that photo. The result lists the ids
attempted before the abort, the success count, and the aborting exception
when one occurred. -/
def downloadLoop (dl : String → Except PyExn (Option String)) :
    List String → List String × Nat × Option PyExn
  | [] => ([], 0, none)
  | p :: ps =>
      match dl p with
      | .error e => ([p], 0, some e)
      | .ok r =>
          let rest := downloadLoop dl ps
          (p :: rest.1, (if r.isSome then 1 else 0) + rest.2.1, rest.2.2)

/-- sync of sync.py over its pass inputs: t0 is the pass-start time recorded
before the listing request (sync_start_time), listing is the outcome of
list_photos (error for an httpx.HTTPError, which is caught and returns 0
with no save), and dl gives each download outcome. An empty listing saves
t0 and returns 0; a completed download loop saves t0 and returns the count;
a loop aborted by an uncaught exception propagates it out of sync before
save_sync_time runs, so nothing is written. -/
def sync (t0 : String) (listing : Except Unit (List String))
    (dl : String → Except PyExn (Option String)) : SyncTrace :=
  match listing with
  | .error _ => ⟨[], [], .ok 0⟩
  | .ok photos =>
      if photos.isEmpty then ⟨[], [t0], .ok 0⟩
      else
        let r := downloadLoop dl photos
        match r.2.2 with
        | some e => ⟨r.1, [], .error e⟩
        | none => ⟨r.1, [t0], .ok r.2.1⟩

lemma sync_cons (t0 : String) (dl : String → Except PyExn (Option String))
    (p : String) (ps : List String) :
    sync t0 (.ok (p :: ps)) dl =
      match (downloadLoop dl (p :: ps)).2.2 with
      | some e => ⟨(downloadLoop dl (p :: ps)).1, [], .error e⟩
      | none => ⟨(downloadLoop dl (p :: ps)).1, [t0],
                 .ok (downloadLoop dl (p :: ps)).2.1⟩ := rfl

lemma downloadLoop_ok (dl : String → Except PyExn (Option String)) :
    ∀ ps : List String, (∀ p ∈ ps, ∃ r, dl p = .ok r) →
      downloadLoop dl ps =
        (ps, (ps.filter (fun p => isSavedOutcome (dl p))).length, none) := by
  intro ps
  induction ps with
  | nil => intro _; rfl
  | cons p ps ih =>
      intro hok
      obtain ⟨r, hr⟩ := hok p (by simp)
      simp only [downloadLoop, hr, ih (fun x hx => hok x (by simp [hx])),
                 List.filter_cons]
      cases r with
      | none => simp [isSavedOutcome, hr]
      | some path =>
          simp [isSavedOutcome, hr]
          omega

lemma downloadLoop_prefix (dl : String → Except PyExn (Option String)) :
    ∀ ps : List String, ∃ suffix, ps = (downloadLoop dl ps).1 ++ suffix := by
  intro ps
  induction ps with
  | nil => exact ⟨[], rfl⟩
  | cons p ps ih =>
      cases hr : dl p with
      | error e => exact ⟨ps, by simp [downloadLoop, hr]⟩
      | ok r =>
          obtain ⟨suffix, hs⟩ := ih
          refine ⟨suffix, ?_⟩
          simp only [downloadLoop, hr]
          rw [List.cons_append, ← hs]

/-- C1 counterexample: a pass whose listing succeeded but whose single
download raised an uncaught ValueError (reachable per C6_counterexample)
aborts before save_sync_time: nothing is written to the state file, although
the claim as stated requires the cursor to be overwritten with the
pass-start time unconditionally once listing succeeded. -/
theorem C1_counterexample :
    (sync "1700.0" (.ok ["p1"]) (fun _ => .error .valueError)).saves = [] ∧
    (sync "1700.0" (.ok ["p1"]) (fun _ => .error .valueError)).outcome =
      .error .valueError :=
  ⟨rfl, rfl⟩

/-- C1 (amended): a failing listing leaves the cursor untouched and returns
zero downloads; after a successful listing, a pass that completes — no
download raised an uncaught exception — writes exactly the pass-start time
t0 as the new cursor, also for an empty listing and also when every download
merely failed with the None result; a pass aborted by a raising download
writes nothing, so the cursor is unchanged. -/
theorem C1_cursor_semantics :
    (∀ t0 : String, ∀ dl : String → Except PyExn (Option String), ∀ e : Unit,
        sync t0 (.error e) dl = ⟨[], [], .ok 0⟩) ∧
    (∀ t0 : String, ∀ dl : String → Except PyExn (Option String),
        ∀ photos : List String, ∀ n : Nat,
        (sync t0 (.ok photos) dl).outcome = .ok n →
        (sync t0 (.ok photos) dl).saves = [t0]) ∧
    (∀ t0 : String, ∀ dl : String → Except PyExn (Option String),
        ∀ photos : List String, ∀ e : PyExn,
        (sync t0 (.ok photos) dl).outcome = .error e →
        (sync t0 (.ok photos) dl).saves = []) ∧
    (∀ t0 : String, ∀ photos : List String,
        (sync t0 (.ok photos) (fun _ => .ok none)).saves = [t0] ∧
        (sync t0 (.ok photos) (fun _ => .ok none)).outcome = .ok 0) := by
  refine ⟨fun _ _ _ => rfl, ?_, ?_, ?_⟩
  · intro t0 dl photos n h
    cases photos with
    | nil => rfl
    | cons p ps =>
        rw [sync_cons] at h ⊢
        cases habort : (downloadLoop dl (p :: ps)).2.2 with
        | some e => rw [habort] at h; exact absurd h (by simp)
        | none => rfl
  · intro t0 dl photos e h
    cases photos with
    | nil => exact absurd h (by simp [sync])
    | cons p ps =>
        rw [sync_cons] at h ⊢
        cases habort : (downloadLoop dl (p :: ps)).2.2 with
        | some e2 => rfl
        | none => rw [habort] at h; exact absurd h (by simp)
  · intro t0 photos
    cases photos with
    | nil => exact ⟨rfl, rfl⟩
    | cons p ps =>
        have hok : ∀ q ∈ p :: ps, ∃ r, (fun _ => (.ok none : Except PyExn (Option String))) q = .ok r :=
          fun q _ => ⟨none, rfl⟩
        rw [sync_cons, downloadLoop_ok _ _ hok]
        constructor
        · rfl
        · show Except.ok ((List.filter _ (p :: ps)).length) = Except.ok 0
          simp [isSavedOutcome]

/-- the download oracle of the two-photo scenario: the photo equal to p2
succeeds, every other download returns the Failed result. -/
def twoPhotoOracle (p2 : String) : String → Except PyExn (Option String) :=
  fun p => .ok (if p = p2 then some "saved.jpg" else none)

/-- C7 counterexample: with two listed photos whose first download raises an
uncaught ValueError (reachable per C6_counterexample), the pass aborts at
the first photo: the second photo is never attempted and no count is
returned, although the claim as stated requires every listed photo to be
downloaded in server order with no abort. -/
theorem C7_counterexample :
    (sync "1700.0" (.ok ["p1", "p2"])
        (fun p => if p = "p1" then .error .valueError else .ok (some "x.jpg"))).attempted
      = ["p1"] ∧
    (sync "1700.0" (.ok ["p1", "p2"])
        (fun p => if p = "p1" then .error .valueError else .ok (some "x.jpg"))).outcome
      = .error .valueError :=
  ⟨rfl, rfl⟩

/-- C7 (amended): the attempted photos always form a prefix of the listing
in server order; when no download raises an uncaught exception, every photo
is attempted in the order supplied and an individual Failed download never
aborts the pass — with two photos whose first download fails and second
succeeds, both are attempted and the pass reports one download and one
failure; a raising download aborts the pass, leaving later photos
unattempted. -/
theorem C7_order_and_partial_failure :
    (∀ t0 : String, ∀ dl : String → Except PyExn (Option String),
        ∀ photos : List String, ∃ suffix : List String,
        photos = (sync t0 (.ok photos) dl).attempted ++ suffix) ∧
    (∀ t0 : String, ∀ dl : String → Except PyExn (Option String),
        ∀ photos : List String, (∀ p ∈ photos, ∃ r, dl p = .ok r) →
        (sync t0 (.ok photos) dl).attempted = photos ∧
        (sync t0 (.ok photos) dl).outcome =
          .ok (photos.filter (fun p => isSavedOutcome (dl p))).length) ∧
    (∀ t0 p1 p2 : String, p1 ≠ p2 →
        (sync t0 (.ok [p1, p2]) (twoPhotoOracle p2)).attempted = [p1, p2] ∧
        (sync t0 (.ok [p1, p2]) (twoPhotoOracle p2)).outcome = .ok 1 ∧
        ([p1, p2].filter
            (fun p => !(isSavedOutcome (twoPhotoOracle p2 p)))).length = 1) := by
  have hb : ∀ t0 : String, ∀ dl : String → Except PyExn (Option String),
      ∀ photos : List String, (∀ p ∈ photos, ∃ r, dl p = .ok r) →
      (sync t0 (.ok photos) dl).attempted = photos ∧
      (sync t0 (.ok photos) dl).outcome =
        .ok (photos.filter (fun p => isSavedOutcome (dl p))).length := by
    intro t0 dl photos hok
    cases photos with
    | nil => exact ⟨rfl, rfl⟩
    | cons p ps =>
        rw [sync_cons, downloadLoop_ok _ _ hok]
        exact ⟨rfl, rfl⟩
  refine ⟨?_, hb, ?_⟩
  · intro t0 dl photos
    cases photos with
    | nil => exact ⟨[], rfl⟩
    | cons p ps =>
        obtain ⟨suffix, hs⟩ := downloadLoop_prefix dl (p :: ps)
        refine ⟨suffix, ?_⟩
        rw [sync_cons]
        cases habort : (downloadLoop dl (p :: ps)).2.2 with
        | some e => exact hs
        | none => exact hs
  · intro t0 p1 p2 hne
    have hok : ∀ p ∈ [p1, p2], ∃ r, twoPhotoOracle p2 p = .ok r :=
      fun p _ => ⟨if p = p2 then some "saved.jpg" else none, rfl⟩
    obtain ⟨hatt, hout⟩ := hb t0 (twoPhotoOracle p2) [p1, p2] hok
    refine ⟨hatt, ?_, ?_⟩
    · rw [hout]
      simp [twoPhotoOracle, isSavedOutcome, if_neg hne]
    · simp [twoPhotoOracle, isSavedOutcome, if_neg hne]

/-- a witness for the amended C1 theorem: a completed single-download pass
saves the pass-start time, and a pass aborted by a raising download saves
nothing. -/
theorem C1_witness :
    (sync "1700.0" (.ok ["p"]) (fun _ => .ok (some "f.jpg"))).saves = ["1700.0"] ∧
    (sync "1700.0" (.ok ["p"]) (fun _ => .error PyExn.valueError)).saves = [] :=
  ⟨C1_cursor_semantics.2.1 "1700.0" (fun _ => .ok (some "f.jpg")) ["p"] 1 (by rfl),
   C1_cursor_semantics.2.2.1 "1700.0" (fun _ => .error PyExn.valueError) ["p"]
      PyExn.valueError (by rfl)⟩

/-- a witness for the amended C7 theorem: a raise-free single-photo pass
attempts its photo, and the two-photo Failed-then-success scenario attempts
both photos with one download and one failure. -/
theorem C7_witness :
    (sync "1700.0" (.ok ["a"]) (fun _ => .ok none)).attempted = ["a"] ∧
    (sync "1700.0" (.ok ["a", "b"]) (twoPhotoOracle "b")).attempted = ["a", "b"] ∧
    (sync "1700.0" (.ok ["a", "b"]) (twoPhotoOracle "b")).outcome = .ok 1 ∧
    (["a", "b"].filter
        (fun p => !(isSavedOutcome (twoPhotoOracle "b" p)))).length = 1 :=
  ⟨(C7_order_and_partial_failure.2.1 "1700.0" (fun _ => .ok none) ["a"]
      (fun q _ => ⟨none, rfl⟩)).1,
   C7_order_and_partial_failure.2.2 "1700.0" "a" "b" (by decide)⟩

/-- exactly two decimal digits at the head of the input, with their value. -/
def parse2 : List Char → Option (Nat × List Char)
  | a :: b :: r =>
      if a.isDigit && b.isDigit then some ((a.toNat - 48) * 10 + (b.toNat - 48), r)
      else none
  | _ => none

/-- exactly four decimal digits at the head of the input, with their value. -/
def parse4 : List Char → Option (Nat × List Char)
  | a :: b :: c :: d :: r =>
      if a.isDigit && b.isDigit && c.isDigit && d.isDigit then
        some (((a.toNat - 48) * 10 + (b.toNat - 48)) * 100 +
              (c.toNat - 48) * 10 + (d.toNat - 48), r)
      else none
  | _ => none

/-- the Gregorian leap-year rule. -/
def isLeapYear (y : Nat) : Bool := y % 4 = 0 && (y % 100 != 0 || y % 400 = 0)

/-- the number of days of a month in a year. -/
def daysInMonth (y m : Nat) : Nat :=
  if m = 2 then (if isLeapYear y then 29 else 28)
  else if m = 4 || m = 6 || m = 9 || m = 11 then 30 else 31

/-- the naive fields of a Python datetime, which are all that the strftime
call in sync.py consumes. -/
structure PyDateTime where
  year : Nat
  month : Nat
  day : Nat
  hour : Nat
  minute : Nat
  second : Nat

/-- the HH[:MM[:SS]] portion of an isoformat time. -/
def parseIsoTime (l : List Char) : Option (Nat × Nat × Nat × List Char) :=
  match parse2 l with
  | none => none
  | some (h, r1) =>
      match r1 with
      | ':' :: r2 =>
          (match parse2 r2 with
           | none => none
           | some (mi, r3) =>
               match r3 with
               | ':' :: r4 =>
                   (match parse2 r4 with
                    | none => none
                    | some (sec, r5) => some (h, mi, sec, r5))
               | _ => some (h, mi, 0, r3))
      | _ => some (h, 0, 0, r1)

/-- an optional fraction of exactly three or six digits. -/
def parseIsoFrac : List Char → Option (List Char)
  | '.' :: r =>
      let ds := r.takeWhile Char.isDigit
      if ds.length = 3 || ds.length = 6 then some (r.drop ds.length) else none
  | l => some l

/-- an optional utc-offset suffix of the form sign HH:MM[:SS], validated and
discarded: the offset does not feed the strftime call. -/
def parseIsoOffset : List Char → Option (List Char)
  | [] => some []
  | c :: r =>
      if c = '+' || c = '-' then
        match parse2 r with
        | none => none
        | some (oh, r1) =>
            match r1 with
            | ':' :: r2 =>
                (match parse2 r2 with
                 | none => none
                 | some (om, r3) =>
                     if oh < 24 && om < 60 then
                       match r3 with
                       | ':' :: r4 =>
                           (match parse2 r4 with
                            | some (os, r5) => if os < 60 then some r5 else none
                            | none => none)
                       | _ => some r3
                     else none)
            | _ => none
      else none

/-- datetime.fromisoformat as called in sync.py after the Z replacement:
the grammar YYYY-MM-DD[sep HH[:MM[:SS]][.fff|.ffffff]][offset], with all
calendar and time ranges validated; none models ValueError. -/
def pyFromIsoformat (s : String) : Option PyDateTime :=
  match parse4 s.data with
  | none => none
  | some (y, r1) =>
      match r1 with
      | '-' :: r2 =>
          (match parse2 r2 with
           | none => none
           | some (mo, r3) =>
               match r3 with
               | '-' :: r4 =>
                   (match parse2 r4 with
                    | none => none
                    | some (d, r5) =>
                        if 1 ≤ y && 1 ≤ mo && mo ≤ 12 && 1 ≤ d && d ≤ daysInMonth y mo then
                          match r5 with
                          | [] => some ⟨y, mo, d, 0, 0, 0⟩
                          | _ :: rt =>
                              match parseIsoTime rt with
                              | none => none
                              | some (h, mi, sec, r6) =>
                                  if h < 24 && mi < 60 && sec < 60 then
                                    match parseIsoFrac r6 with
                                    | none => none
                                    | some r7 =>
                                        match parseIsoOffset r7 with
                                        | some [] => some ⟨y, mo, d, h, mi, sec⟩
                                        | _ => none
                                  else none
                        else none)
               | _ => none)
      | _ => none

/-- a number rendered in decimal and left-padded with zeros to a width. -/
def padNum (width n : Nat) : String :=
  String.mk (List.replicate (width - (natToStr n).data.length) '0') ++ natToStr n

/-- the strftime format string of sync.py, percent Y m d underscore H M S. -/
def strftimeYmdHms (dt : PyDateTime) : String :=
  padNum 4 dt.year ++ padNum 2 dt.month ++ padNum 2 dt.day ++ "_" ++
  padNum 2 dt.hour ++ padNum 2 dt.minute ++ padNum 2 dt.second

/-- str.replace with a single-character old value at the String level. -/
def pyReplaceCharStr (s : String) (old : Char) (new : String) : String :=
  String.mk (pyReplaceChar s.data old new.data)

/-- the response to a regular photo download request, as consumed by
_download_regular_photo of sync.py. -/
structure DownloadResp where
  xOriginalFilename : Option String
  xMediaType : Option String
  content : List Nat

/-- the filename generation of _download_regular_photo when the
X-Original-Filename header is absent or empty: format the creation date if
present (ValueError if fromisoformat rejects it after the Z replacement),
else derive from the photo id; then append the media-type extension. -/
def genFilename (photoId creationDate : String) (r : DownloadResp) : Except PyExn String :=
  let ext := if r.xMediaType.getD "image" = "video" then ".mp4" else ".jpg"
  if creationDate ≠ "" then
    match pyFromIsoformat (pyReplaceCharStr creationDate 'Z' "+00:00") with
    | none => .error .valueError
    | some dt => .ok (strftimeYmdHms dt ++ ext)
  else .ok (pyReplaceCharStr photoId '/' "_" ++ ext)

/-- _download_regular_photo of sync.py: a transport error (httpx.HTTPError)
is caught and gives none; otherwise the filename is taken from the header or
generated, sanitized and collision-resolved, and the written path returned.
Exceptions other than httpx.HTTPError are not caught and escape as error. -/
def download_regular_photo (photoId creationDate : String)
    (resp : Except Unit DownloadResp) (dir : List String) :
    Except PyExn (Option String) :=
  match resp with
  | .error _ => .ok none
  | .ok r =>
      match (match r.xOriginalFilename with
             | some f => if f = "" then genFilename photoId creationDate r else .ok f
             | none => genFilename photoId creationDate r) with
      | .error e => .error e
      | .ok fname => .ok (some (resolveFilename dir fname))

/-- C6 counterexample: with a successful response that carries no filename
header and metadata whose creationDate does not parse, the download raises
ValueError out of _download_regular_photo instead of returning Failed: only
httpx.HTTPError is caught. -/
theorem C6_counterexample :
    download_regular_photo "photo1" "not-a-date"
      (.ok ⟨none, none, [1, 2, 3]⟩) [] = .error .valueError := rfl

/-- C6 (amended): every transport-level error is converted to the absent
result and never propagates, and downloads with a usable filename header or
no creation date never raise; but download can raise ValueError when the
filename must be derived from a creationDate that does not parse. -/
theorem C6_transport_errors_never_propagate :
    (∀ photoId creationDate : String, ∀ e : Unit, ∀ dir : List String,
        download_regular_photo photoId creationDate (.error e) dir = .ok none) ∧
    (∀ photoId creationDate f : String, ∀ r : DownloadResp, ∀ dir : List String,
        r.xOriginalFilename = some f → f ≠ "" →
        download_regular_photo photoId creationDate (.ok r) dir =
          .ok (some (resolveFilename dir f))) ∧
    (∀ photoId : String, ∀ r : DownloadResp, ∀ dir : List String,
        r.xOriginalFilename = none →
        download_regular_photo photoId "" (.ok r) dir =
          .ok (some (resolveFilename dir (pyReplaceCharStr photoId '/' "_" ++
            (if r.xMediaType.getD "image" = "video" then ".mp4" else ".jpg"))))) := by
  refine ⟨fun _ _ _ _ => rfl, ?_, ?_⟩
  · intro photoId creationDate f r dir hf hne
    simp only [download_regular_photo, hf, if_neg hne]
  · intro photoId r dir hf
    simp only [download_regular_photo, hf, genFilename]
    simp

/-- a witness for the amended C6 theorem: a transport error gives the absent
result, a header-provided filename is used as is, and with no header and no
creation date the name derives from the photo id. -/
theorem C6_witness :
    download_regular_photo "p" "2024-01-15T10:30:00Z" (.error ()) [] = .ok none ∧
    download_regular_photo "p" "" (.ok ⟨some "IMG_1.jpg", some "image", []⟩) [] =
      .ok (some (resolveFilename [] "IMG_1.jpg")) ∧
    download_regular_photo "a/b" "" (.ok ⟨none, some "video", []⟩) [] =
      .ok (some (resolveFilename [] (pyReplaceCharStr "a/b" '/' "_" ++ ".mp4"))) :=
  ⟨C6_transport_errors_never_propagate.1 "p" "2024-01-15T10:30:00Z" () [],
   C6_transport_errors_never_propagate.2.1 "p" "" "IMG_1.jpg"
      ⟨some "IMG_1.jpg", some "image", []⟩ [] rfl (by decide),
   C6_transport_errors_never_propagate.2.2 "a/b" ⟨none, some "video", []⟩ [] rfl⟩

/-- Python split on a nonempty separator sequence, non-overlapping from the
left, fuel-bounded by the input length. -/
def pySplitSeq [DecidableEq α] (sep : List α) : Nat → List α → List (List α)
  | _, [] => [[]]
  | 0, l => [l]
  | f + 1, c :: cs =>
      if startsWithSeq sep (c :: cs) then
        [] :: pySplitSeq sep f ((c :: cs).drop sep.length)
      else
        match pySplitSeq sep f cs with
        | [] => [[c]]
        | p :: ps => (c :: p) :: ps

/-- fuel-bounded search for a contiguous occurrence of the pattern. -/
def containsSeq [DecidableEq α] (pat : List α) : Nat → List α → Bool
  | _, [] => pat.isEmpty
  | 0, _ => false
  | f + 1, c :: cs => startsWithSeq pat (c :: cs) || containsSeq pat f cs

/-- the Python in operator on sequences: contiguous sublist containment. -/
def containsSub [DecidableEq α] (pat l : List α) : Bool :=
  containsSeq pat (l.length + 1) l

/-- fuel-bounded index of the first occurrence of the pattern. -/
def findSeq [DecidableEq α] (pat : List α) : Nat → List α → Option Nat
  | _, [] => if pat.isEmpty then some 0 else none
  | 0, _ => none
  | f + 1, c :: cs =>
      if startsWithSeq pat (c :: cs) then some 0
      else (findSeq pat f cs).map (· + 1)

/-- bytes.find of a sublist: the index of the first occurrence, or none for
the minus-one result. -/
def findSub [DecidableEq α] (pat l : List α) : Option Nat :=
  findSeq pat (l.length + 1) l

/-- the Python endswith test on sequences. -/
def endsWithSeq [DecidableEq α] (pat l : List α) : Bool :=
  startsWithSeq pat.reverse l.reverse

/-- UTF-8 decoding with errors ignore: well-formed sequences decode to their
code point, bytes that do not start a valid sequence are skipped. Overlong
and surrogate encodings are not specially rejected, a simplification that
does not affect the ASCII header data the claims concern. -/
def utf8DecodeIgnore : Nat → List Nat → List Char
  | 0, _ => []
  | _ + 1, [] => []
  | f + 1, b :: rest =>
      if b < 0x80 then Char.ofNat b :: utf8DecodeIgnore f rest
      else if 0xC2 ≤ b && b ≤ 0xDF then
        match rest with
        | b2 :: r2 =>
            if 0x80 ≤ b2 && b2 ≤ 0xBF then
              Char.ofNat ((b - 0xC0) * 0x40 + (b2 - 0x80)) :: utf8DecodeIgnore f r2
            else utf8DecodeIgnore f rest
        | [] => []
      else if 0xE0 ≤ b && b ≤ 0xEF then
        match rest with
        | b2 :: b3 :: r3 =>
            if 0x80 ≤ b2 && b2 ≤ 0xBF && 0x80 ≤ b3 && b3 ≤ 0xBF then
              Char.ofNat ((b - 0xE0) * 0x1000 + (b2 - 0x80) * 0x40 + (b3 - 0x80)) ::
                utf8DecodeIgnore f r3
            else utf8DecodeIgnore f rest
        | _ => []
      else if 0xF0 ≤ b && b ≤ 0xF4 then
        match rest with
        | b2 :: b3 :: b4 :: r4 =>
            if 0x80 ≤ b2 && b2 ≤ 0xBF && 0x80 ≤ b3 && b3 ≤ 0xBF &&
               0x80 ≤ b4 && b4 ≤ 0xBF then
              Char.ofNat ((b - 0xF0) * 0x40000 + (b2 - 0x80) * 0x1000 +
                          (b3 - 0x80) * 0x40 + (b4 - 0x80)) :: utf8DecodeIgnore f r4
            else utf8DecodeIgnore f rest
        | _ => []
      else utf8DecodeIgnore f rest

/-- bytes.decode with utf-8 and errors ignore. -/
def utf8Decode (l : List Nat) : List Char := utf8DecodeIgnore (l.length + 1) l

/-- str.split at the String level. -/
def strSplitSeq (sep s : String) : List String :=
  (pySplitSeq sep.data (s.data.length + 1) s.data).map String.mk

/-- str.strip of surrounding whitespace. -/
def pyStrip (s : String) : String := String.mk (stripWs s.data)

/-- the filename scan of _download_live_photo: the first header line that
contains filename= is split at the quoted marker; a line carrying filename=
without the quote form makes the index-one access raise IndexError. -/
def extractFilename : List String → Except PyExn (Option String)
  | [] => .ok none
  | line :: rest =>
      if containsSub "filename=".data line.data then
        match pySplitSeq ("filename=" ++ "\"").data (line.data.length + 1) line.data with
        | _ :: second :: _ =>
            .ok (some (String.mk
              ((pySplitSeq ['"'] (second.length + 1) second).headD [])))
        | _ => .error .indexError
      else extractFilename rest

/-- removal of one trailing CRLF from a part content, when present. -/
def stripOneCrlf (l : List Nat) : List Nat :=
  if endsWithSeq [13, 10] l then l.take (l.length - 2) else l

/-- the per-part loop of _download_live_photo over the split body: parts
without a Content-Disposition header or without a blank-line separator are
skipped; otherwise the headers are decoded and scanned for a filename, one
trailing CRLF is stripped from the content, and a part with a nonempty
filename and nonempty content is collision-resolved against the growing
directory and written. The result lists the written files in order. -/
def processParts : List (List Nat) → List String → Except PyExn (List (String × List Nat))
  | [], _ => .ok []
  | part :: rest, dir =>
      if containsSub (utf8Encode "Content-Disposition") part then
        match findSub (utf8Encode ("\r\n" ++ "\r\n")) part with
        | none => processParts rest dir
        | some headerEnd =>
            let headers := String.mk (utf8Decode (part.take headerEnd))
            let content := stripOneCrlf (part.drop (headerEnd + 4))
            match extractFilename (strSplitSeq "\r\n" headers) with
            | .error e => .error e
            | .ok none => processParts rest dir
            | .ok (some fname) =>
                if fname ≠ "" ∧ content ≠ [] then
                  match processParts rest (resolveFilename dir fname :: dir) with
                  | .error e => .error e
                  | .ok saved => .ok ((resolveFilename dir fname, content) :: saved)
                else processParts rest dir
      else processParts rest dir

/-- the response to a live-photo request as consumed by
_download_live_photo of sync.py. -/
structure LiveResp where
  contentType : String
  content : List Nat

/-- _download_live_photo of sync.py: a transport error gives the absent
result; a content-type without a boundary parameter gives the absent result;
otherwise the body is split on the double-dash boundary marker, the parts
are processed, and the result is the path of the first written file (absent
when none was written) together with the written files. -/
def download_live_photo (resp : Except Unit LiveResp) (dir : List String) :
    Except PyExn (Option String × List (String × List Nat)) :=
  match resp with
  | .error _ => .ok (none, [])
  | .ok r =>
      if containsSub "boundary=".data r.contentType.data then
        let boundary := pyStrip (String.mk
          ((pySplitSeq "boundary=".data (r.contentType.data.length + 1)
              r.contentType.data).getD 1 []))
        let parts := pySplitSeq (utf8Encode ("--" ++ boundary))
          (r.content.length + 1) r.content
        match processParts parts dir with
        | .error e => .error e
        | .ok saved => .ok ((saved.head?).map (fun p => p.1), saved)
      else .ok (none, [])

/-- a two-part multipart body with boundary BOUND, quoted filenames a.jpg
and b.mov, and contents AAA and BBB. -/
def twoPartBody : List Nat :=
  utf8Encode ("--BOUND\r\nContent-Disposition: form-data; filename=\"a.jpg\"\r\n\r\nAAA\r\n--BOUND\r\nContent-Disposition: form-data; filename=\"b.mov\"\r\n\r\nBBB\r\n--BOUND--")

/-- a one-part multipart body whose single part carries a
Content-Disposition header and a quoted filename but whose content is a bare
CRLF, which strips to empty. -/
def emptyContentBody : List Nat :=
  utf8Encode ("--BOUND\r\nContent-Disposition: form-data; filename=\"a.jpg\"\r\n\r\n\r\n--BOUND--")

set_option maxRecDepth 1000000 in
/-- C8 counterexample: the single part of this body has a
Content-Disposition header, a blank-line separator and the quoted filename
a.jpg, yet after the CRLF strip its content is empty, so the code skips it:
no file is written and the result is the absent one, while the claim as
stated requires the bytes of every remaining part to be written and the
result to name the first written component. -/
theorem C8_counterexample :

    containsSub (utf8Encode "Content-Disposition")
      ((pySplitSeq (utf8Encode "--BOUND") (emptyContentBody.length + 1)
          emptyContentBody).getD 1 []) = true ∧
    download_live_photo
      (.ok ⟨"multipart/form-data; boundary=BOUND", emptyContentBody⟩) [] =
      .ok (none, []) :=
  ⟨by decide, rfl⟩

set_option maxRecDepth 1000000 in
/-- C8 (amended): a transport error or a content-type without a boundary
parameter gives the absent result; the body is split on the double-dash
boundary marker and parts without a Content-Disposition header are skipped;
one trailing CRLF is stripped from a part content when present; parts with a
nonempty extracted filename and nonempty content are written after
sanitization and collision resolution, the others are skipped; and the
result is the path of the first written component, absent when none was
written, as the two-part example shows. -/
theorem C8_live_photo_multipart :
    (∀ e : Unit, ∀ dir : List String, download_live_photo (.error e) dir = .ok (none, [])) ∧
    (∀ r : LiveResp, ∀ dir : List String,
        containsSub "boundary=".data r.contentType.data = false →
        download_live_photo (.ok r) dir = .ok (none, [])) ∧
    (∀ part : List Nat, ∀ rest : List (List Nat), ∀ dir : List String,
        containsSub (utf8Encode "Content-Disposition") part = false →
        processParts (part :: rest) dir = processParts rest dir) ∧
    (∀ l : List Nat, stripOneCrlf (l ++ [13, 10]) = l) ∧
    (∀ l : List Nat, endsWithSeq [13, 10] l = false → stripOneCrlf l = l) ∧
    (∀ r : LiveResp, ∀ dir : List String, ∀ x : Option String,
        ∀ saved : List (String × List Nat),
        download_live_photo (.ok r) dir = .ok (x, saved) →
        x = (saved.head?).map (fun p => p.1)) ∧
    download_live_photo
      (.ok ⟨"multipart/form-data; boundary=BOUND", twoPartBody⟩) [] =
      .ok (some "a.jpg", [("a.jpg", utf8Encode "AAA"), ("b.mov", utf8Encode "BBB")]) := by
  refine ⟨fun _ _ => rfl, ?_, ?_, ?_, ?_, ?_, by rfl⟩
  · intro r dir hb
    simp only [download_live_photo, hb]
    rfl
  · intro part rest dir hcd
    simp only [processParts, hcd]
    rfl
  · intro l
    have hend : endsWithSeq [13, 10] (l ++ [13, 10]) = true := by
      simp [endsWithSeq, List.reverse_append, startsWithSeq]
    simp only [stripOneCrlf, hend, if_true, List.length_append]
    rw [show l.length + [13, 10].length - 2 = l.length by simp]
    exact List.take_left l [13, 10]
  · intro l hend
    simp [stripOneCrlf, hend]
  · intro r dir x saved h
    simp only [download_live_photo] at h
    by_cases hb : containsSub "boundary=".data r.contentType.data
    · simp only [hb, if_true] at h
      cases hp : processParts (pySplitSeq (utf8Encode ("--" ++ pyStrip (String.mk
          ((pySplitSeq "boundary=".data (r.contentType.data.length + 1)
              r.contentType.data).getD 1 []))))
          (r.content.length + 1) r.content) dir with
      | error e => rw [hp] at h; exact absurd h (by simp)
      | ok saved2 =>
          rw [hp] at h
          simp only [Except.ok.injEq, Prod.mk.injEq] at h
          obtain ⟨h1, rfl⟩ := h
          exact h1.symm
    · have hb2 : containsSub "boundary=".data r.contentType.data = false := by
        simpa using hb
      simp [hb2] at h
      obtain ⟨rfl, rfl⟩ := h.symm
      rfl

set_option maxRecDepth 1000000 in
/-- a witness for the amended C8 theorem: the boundary-free content type and
the header-free part are skipped, the CRLF strip acts on a concrete content,
and the two-part body result names its first written file. -/
theorem C8_witness :

    download_live_photo (.ok ⟨"text/plain", utf8Encode "hello"⟩) [] = .ok (none, []) ∧
    processParts [utf8Encode "junk"] [] = processParts [] [] ∧
    stripOneCrlf (utf8Encode "AAA" ++ [13, 10]) = utf8Encode "AAA" ∧
    stripOneCrlf (utf8Encode "AAA") = utf8Encode "AAA" ∧
    (some "a.jpg" : Option String) =
      (([("a.jpg", utf8Encode "AAA"), ("b.mov", utf8Encode "BBB")] :
          List (String × List Nat)).head?).map (fun p => p.1) :=
  ⟨C8_live_photo_multipart.2.1 ⟨"text/plain", utf8Encode "hello"⟩ [] (by decide),
   C8_live_photo_multipart.2.2.1 (utf8Encode "junk") [] [] (by decide),
   C8_live_photo_multipart.2.2.2.1 (utf8Encode "AAA"),
   C8_live_photo_multipart.2.2.2.2.1 (utf8Encode "AAA") (by decide),
   C8_live_photo_multipart.2.2.2.2.2.1
      ⟨"multipart/form-data; boundary=BOUND", twoPartBody⟩ [] (some "a.jpg")
      [("a.jpg", utf8Encode "AAA"), ("b.mov", utf8Encode "BBB")]
      C8_live_photo_multipart.2.2.2.2.2.2⟩

end PhotoShare
